import Mathlib

/-!
Verification development for the ssh-ify tunneling relay.

This file shallowly embeds the core data model and operations of the
repository — the direct-tcpip channel-open payload parser, the SSH channel
dispatch loop, user authentication, the connection registry, and the
per-connection session handler — as executable Lean definitions, and proves
the specification's testable properties about them.

Conventions:
- Go byte slices are `List Nat` (each element a byte value).
- Go strings used as text (usernames, header lines) are Lean `String`;
  raw byte strings (the parsed target host) stay `List Nat`.
- Machine integers are `Nat`/`Int`; Go's `int32` registry counter is `Int`.
- Fallible Go functions return `Except String` (mirroring Go `error`), and
  operations that could panic on out-of-bounds slicing return `Option`
  (`none` = panic), so panic-freedom is provable rather than assumed.
- External I/O effects (channel Accept, SSH config construction, client
  writes) are parameters (`Bool` outcomes) of the embedding.
-/

namespace Sshify

/-! ## Big-endian 32-bit decoding (encoding/binary) -/

/-- Models `binary.BigEndian.Uint32`: big-endian base-256 value of a byte
list (the Go code always applies it to a 4-byte slice). -/
def beUint32 (bs : List Nat) : Nat :=
  bs.foldl (fun acc b => acc * 256 + b) 0

/-- Modelled from the spec: the 4-byte big-endian encoding of a 32-bit
value, used by the wire format `uint32 hostLen | host bytes | uint32 port`
(spec §6); the serializer itself lives in the SSH client, not this repo. -/
def beBytes32 (n : Nat) : List Nat :=
  [n / 2 ^ 24 % 256, n / 2 ^ 16 % 256, n / 2 ^ 8 % 256, n % 256]

/-- Models a Go slice expression `xs[lo:hi]`: `none` models the runtime
panic when the bounds are invalid. -/
def goSlice (xs : List Nat) (lo hi : Nat) : Option (List Nat) :=
  if lo ≤ hi ∧ hi ≤ xs.length then some ((xs.drop lo).take (hi - lo)) else none

/-! ## parseDirectTCPIPExtra (internal/ssh/ssh.go) -/

/-- Models `parseDirectTCPIPExtra` from `internal/ssh/ssh.go`: extracts the
target host bytes and port from direct-tcpip extra data. The outer `Option`
is `none` exactly when a Go slice expression would panic. -/
def parseDirectTCPIPExtra (extra : List Nat) :
    Option (Except String (List Nat × Nat)) :=
  if extra.length < 4 then
    some (Except.error "invalid direct-tcpip request: insufficient data for host length")
  else
    match goSlice extra 0 4 with
    | none => none
    | some lenBytes =>
      let l := beUint32 lenBytes
      if extra.length < 4 + l + 4 then
        some (Except.error "invalid direct-tcpip request: insufficient data for host and port")
      else
        match goSlice extra 4 (4 + l), goSlice extra (4 + l) (4 + l + 4) with
        | some hostBytes, some portBytes =>
            some (Except.ok (hostBytes, beUint32 portBytes))
        | _, _ => none

/-- Modelled from the spec wire format (§6): serialize a channel-open
payload as `uint32 hostLen | host bytes | uint32 port`. -/
def serializeDirectTCPIP (host : List Nat) (port : Nat) : List Nat :=
  beBytes32 host.length ++ host ++ beBytes32 port

/-- Models the dial address built by `handlePortForwarding`
(`internal/ssh/ssh.go`): `net.JoinHostPort(targetHost,
strconv.Itoa(int(targetPort)))` — the decoded port is used unmodified,
with no truncation to 16 bits. -/
def handlePortForwardingDial (targetHost : List Nat) (targetPort : Nat) :
    List Nat × Nat :=
  (targetHost, targetPort)

/-! ## SSH channel dispatch (HandleSSHChannels, internal/ssh/ssh.go) -/

/-- Models `ssh.NewChannel` as seen by `HandleSSHChannels`: its type
string, its extra data, and whether the external `Accept()` call would
succeed. -/
structure NewChannel where
  channelType : String
  extraData : List Nat
  acceptOk : Bool

/-- The externally visible outcome of processing one channel in
`HandleSSHChannels`. -/
inductive ChannelAction where
  | rejectedUnknownType (msg : String)
  | rejectedProhibited (msg : String)
  | acceptFailed
  | panicked
  | forwarded (host : List Nat) (port : Nat)
deriving DecidableEq

/-- Models `isDirectTCPIPChannel` from `internal/ssh/ssh.go`. -/
def isDirectTCPIPChannel (c : NewChannel) : Bool :=
  c.channelType = "direct-tcpip"

/-- Models one iteration of the `HandleSSHChannels` loop body
(`internal/ssh/ssh.go`): reject unknown channel types, reject channels
whose extra data fails to parse, otherwise accept and forward. -/
def handleChannel (c : NewChannel) : ChannelAction :=
  if ¬ isDirectTCPIPChannel c then
    ChannelAction.rejectedUnknownType "only port forwarding allowed"
  else
    match parseDirectTCPIPExtra c.extraData with
    | none => ChannelAction.panicked
    | some (Except.error e) => ChannelAction.rejectedProhibited e
    | some (Except.ok (host, port)) =>
        if c.acceptOk then ChannelAction.forwarded host port
        else ChannelAction.acceptFailed

/-- Models `HandleSSHChannels` from `internal/ssh/ssh.go`: every channel on
the session is processed independently in order; a malformed channel never
stops the loop. -/
def HandleSSHChannels (cs : List NewChannel) : List ChannelAction :=
  cs.map handleChannel

/-- Whether a channel outcome involves a target dial: only an accepted,
forwarded channel reaches `net.Dial` inside `handlePortForwarding`. -/
def channelDials (a : ChannelAction) : Bool :=
  match a with
  | ChannelAction.forwarded _ _ => true
  | _ => false

/-! ## User database and authentication (internal/usermgmt, internal/ssh) -/

/-- Models the `User` record (`internal/usermgmt`): username, bcrypt
password hash, and the enabled flag (timestamps are irrelevant to
authentication and omitted). -/
structure User where
  username : String
  passwordHash : String
  enabled : Bool

/-- Models `UserDB`: the username-keyed map of accounts, together with the
password-check predicate. `verifyPassword password hash` models the external
`bcrypt.CompareHashAndPassword` succeeding; bcrypt itself is an external
collaborator (spec §1, out of scope) and is therefore a parameter. -/
structure UserDB where
  users : List (String × User)
  verifyPassword : String → String → Bool

/-- Models `UserDB.Authenticate` (`internal/usermgmt`): deny missing or
disabled accounts, then check the password against the stored hash. -/
def UserDB.Authenticate (db : UserDB) (username password : String) : Bool :=
  match db.users.lookup username with
  | none => false
  | some user =>
      if user.enabled = false then false
      else if db.verifyPassword password user.passwordHash then true
      else false

/-- Models `PasswordAuth` (`internal/ssh/ssh.go`): error when the global
user database is uninitialized, otherwise succeed exactly when
`UserDB.Authenticate` returns true. -/
def PasswordAuth (userDB : Option UserDB) (user password : String) :
    Except String Unit :=
  match userDB with
  | none => Except.error "user database not initialized"
  | some db =>
      if db.Authenticate user password then Except.ok ()
      else Except.error "invalid credentials"

/-! ## Connection registry (Server, internal/tunnel/tunnel.go) -/

/-- Models the registry-relevant fields of `Server`
(`internal/tunnel/tunnel.go`): whether the shutdown context has been
cancelled, the `sync.Map` of tracked sessions (as a list of session ids),
the `sync.WaitGroup` counter, and the atomic `activeCount` (an `int32`). -/
structure ServerState where
  shutdownInitiated : Bool
  conns : List Nat
  wgCounter : Int
  activeCount : Int
deriving DecidableEq

/-- Models `Server.Add` (`internal/tunnel/tunnel.go`): the `select` on
`ctx.Done()` makes it a no-op once shutdown has been initiated; otherwise
it stores the session, increments the WaitGroup, and increments
`activeCount`. -/
def ServerAdd (st : ServerState) (sid : Nat) : ServerState :=
  if st.shutdownInitiated then st
  else
    { st with
      conns := sid :: st.conns
      wgCounter := st.wgCounter + 1
      activeCount := st.activeCount + 1 }

/-- Models `Server.Remove` (`internal/tunnel/tunnel.go`): unconditionally
deletes the session, calls `wg.Done()`, and decrements `activeCount`.
There is no guard: Go's `sync.WaitGroup` panics at runtime if the counter
here goes negative. -/
def ServerRemove (st : ServerState) (sid : Nat) : ServerState :=
  { st with
    conns := st.conns.filter (fun x => x ≠ sid)
    wgCounter := st.wgCounter - 1
    activeCount := st.activeCount - 1 }

/-- A fresh server as built by `NewServer`: no shutdown, no tracked
sessions, both counters zero. -/
def initialServerState : ServerState :=
  { shutdownInitiated := false, conns := [], wgCounter := 0, activeCount := 0 }

/-- A registry operation performed by a session's lifecycle. -/
inductive RegOp where
  | add
  | remove

/-- Models the registry calls made by `HandleSSHConnection`
(`internal/ssh/ssh.go`): the `onAuthSuccess` callback (which is
`server.Add`) runs exactly when the handshake succeeds; a failed handshake
closes the connection and returns without any registry call. -/
def HandleSSHConnectionRegOps (handshakeOk : Bool) : List RegOp :=
  if handshakeOk then [RegOp.add] else []

/-- Models the channels serviced by `HandleSSHConnection`: channel
negotiation is reached only after a successful handshake; on a rejected
handshake the connection is closed and no channel is ever processed. -/
def HandleSSHConnectionChannelActions (handshakeOk : Bool)
    (cs : List NewChannel) : List ChannelAction :=
  if handshakeOk then HandleSSHChannels cs else []

/-- Models the registry call in `Session.Relay`'s deferred cleanup
(`internal/tunnel/tunnel.go`): `server.Remove` runs unconditionally once
both copy loops finish. -/
def SessionRelayRegOps : List RegOp :=
  [RegOp.remove]

/-- The registry operations performed across one upgraded session's
lifetime, in order: the engine's registration callback (which fires only
on handshake success, and strictly before relay teardown when it fires at
all), followed by `Session.Relay`'s unconditional `Remove`. A session whose
upgrade is not accepted never calls `Relay` and performs no registry
operation. -/
def sessionLifecycleRegOps (upgradeAccepted handshakeOk : Bool) : List RegOp :=
  if upgradeAccepted then HandleSSHConnectionRegOps handshakeOk ++ SessionRelayRegOps
  else []

/-- Apply a session's registry operations to the server state. -/
def applyRegOps (sid : Nat) : ServerState → List RegOp → ServerState
  | st, [] => st
  | st, RegOp.add :: rest => applyRegOps sid (ServerAdd st sid) rest
  | st, RegOp.remove :: rest => applyRegOps sid (ServerRemove st sid) rest

/-! ## Go strings helpers (package strings), over `List Char`

Header text is modelled as `List Char` so every operation is a structural
recursion the kernel can evaluate. Case mapping follows the ASCII range,
which is all the header matching in this code exercises. -/

/-- Models `unicode.IsSpace` on the ASCII whitespace characters that can
occur in header lines. -/
def goIsSpace (c : Char) : Bool :=
  c = ' ' || c = '\t' || c = '\n' || c = Char.ofNat 11 || c = Char.ofNat 12 || c = '\r'

/-- Models `strings.TrimSpace`: drop whitespace from both ends. -/
def trimSpace (s : List Char) : List Char :=
  ((s.dropWhile goIsSpace).reverse.dropWhile goIsSpace).reverse

/-- Models `unicode.ToLower` on the ASCII range. -/
def goToLower (c : Char) : Char :=
  if 'A' ≤ c ∧ c ≤ 'Z' then Char.ofNat (c.toNat + 32) else c

/-- Models `strings.ToLower`. -/
def toLowerStr (s : List Char) : List Char :=
  s.map goToLower

/-- Models `strings.SplitN(line, ":", 2)`: `none` when the line has no
colon (Go returns a one-element slice and the caller skips it), otherwise
the text before and after the first colon. -/
def splitFirstColon : List Char → Option (List Char × List Char)
  | [] => none
  | c :: rest =>
      if c = ':' then some ([], rest)
      else
        match splitFirstColon rest with
        | none => none
        | some (before, after) => some (c :: before, after)

/-- Models `strings.Split(buf, "\r\n")`. -/
def splitOnCRLF : List Char → List (List Char)
  | [] => [[]]
  | '\r' :: '\n' :: rest => [] :: splitOnCRLF rest
  | c :: rest =>
      match splitOnCRLF rest with
      | [] => [[c]]
      | h :: t => (c :: h) :: t

/-- Models `strings.HasSuffix`. -/
def stringsHasSuffix (s suf : List Char) : Bool :=
  if suf.length ≤ s.length then s.drop (s.length - suf.length) == suf
  else false

/-! ## HeaderValue (internal/tunnel/tunnel.go) -/

/-- The loop body of `HeaderValue`: trim each line, skip empties and lines
without a colon, compare the lowercased trimmed name, return the trimmed
value of the first match. -/
def headerValueLoop (target : List Char) : List (List Char) → List Char
  | [] => []
  | line :: rest =>
      let l := trimSpace line
      if l.length = 0 then headerValueLoop target rest
      else
        match splitFirstColon l with
        | none => headerValueLoop target rest
        | some (name, value) =>
            if toLowerStr (trimSpace name) = target then trimSpace value
            else headerValueLoop target rest

/-- Models `HeaderValue` from `internal/tunnel/tunnel.go`: case-insensitive
lookup of a header's value among the request lines; empty when absent. -/
def HeaderValue (headers : List (List Char)) (headerName : List Char) : List Char :=
  headerValueLoop (toLowerStr headerName) headers

/-! ## Session handling (internal/tunnel/tunnel.go) -/

/-- Models `BufferSize` from `internal/tunnel/tunnel.go`: the maximum
accumulated header size (16KB). -/
def BufferSize : Nat := 4096 * 4

/-- Models `WebSocketUpgradeResponse` from `internal/tunnel/tunnel.go`,
byte for byte. -/
def WebSocketUpgradeResponse : List Char :=
  ("HTTP/1.1 101 Switching Protocols\r\n" ++
    "Upgrade: websocket\r\n" ++
    "Connection: Upgrade\r\n" ++
    "Sec-WebSocket-Accept: s3pPLMBiTxaQ9kYGzzhZRbK+xOo=\r\n" ++
    "Sec-WebSocket-Version: 13\r\n\r\n").data

/-- The response written on the header-overflow path of `Session.Handle`. -/
def headerTooLargeResponse : List Char :=
  "HTTP/1.1 431 Request Header Fields Too Large\r\n\r\n".data

/-- The externally observable actions a session takes on its client
connection and tunnel machinery, in program order. The header-overflow
and read-error paths of `Session.Handle` return without any close call,
so no `closeConn` action appears there. -/
inductive SessionAction where
  | writeClient (s : List Char)
  | closeConn
  | spawnEngine
  | startRelay
deriving DecidableEq

/-- Models `WebSocketHandler` from `internal/tunnel/tunnel.go`. `configOk`
models `ssh.NewConfig()` succeeding and `writeOk` the client write
succeeding (both external effects). Returns the actions taken and the
Boolean result: close with no response when the extracted `Upgrade` value
is empty; on the success path spawn the engine, write the fixed upgrade
response, and return true; on write failure close and return false. -/
def WebSocketHandler (reqLines : List (List Char)) (configOk writeOk : Bool) :
    List SessionAction × Bool :=
  let upgradeHeader := HeaderValue reqLines "Upgrade".data
  if upgradeHeader = [] then ([SessionAction.closeConn], false)
  else if ¬ configOk then ([], false)
  else if writeOk then
    ([SessionAction.spawnEngine, SessionAction.writeClient WebSocketUpgradeResponse], true)
  else ([SessionAction.spawnEngine, SessionAction.closeConn], false)

/-- Outcome of the header-reading loop in `Session.Handle`. -/
inductive HeaderReadOutcome where
  | readError
  | tooLarge
  | proceed (header : List Char)
deriving DecidableEq

/-- Models the header-reading loop of `Session.Handle`
(`internal/tunnel/tunnel.go`) with `bufio.Reader.ReadString('\n')` inlined:
`line` is the partial line being read, `builder` the accumulated header.
End of input before a newline is a read error (the code returns without a
response); after each complete line the code first checks for the
`\r\n\r\n` terminator, then rejects if the accumulated size exceeds
`BufferSize`. -/
def readHeaderChars (builder line : List Char) : List Char → HeaderReadOutcome
  | [] => HeaderReadOutcome.readError
  | c :: rest =>
      if c = '\n' then
        let b := builder ++ (line ++ [c])
        if stringsHasSuffix b "\r\n\r\n".data then HeaderReadOutcome.proceed b
        else if BufferSize < b.length then HeaderReadOutcome.tooLarge
        else readHeaderChars b [] rest
      else readHeaderChars builder (line ++ [c]) rest

/-- Models `Session.Handle` (`internal/tunnel/tunnel.go`) as the ordered
list of session actions: nothing on a read error; only the 431 response on
header overflow; otherwise split the header block on `\r\n`, run
`WebSocketHandler` on the lines after the request line, and start the relay
exactly when it returns true. -/
def sessionHandle (input : List Char) (configOk writeOk : Bool) :
    List SessionAction :=
  match readHeaderChars [] [] input with
  | HeaderReadOutcome.readError => []
  | HeaderReadOutcome.tooLarge => [SessionAction.writeClient headerTooLargeResponse]
  | HeaderReadOutcome.proceed buf =>
      let reqLines := splitOnCRLF buf
      match WebSocketHandler (reqLines.drop 1) configOk writeOk with
      | (acts, true) => acts ++ [SessionAction.startRelay]
      | (acts, false) => acts

/-- Modelled from the spec: the claim-side predicate "the headers contain
an `Upgrade` field (matched case-insensitively) with a non-empty value",
read as a property of the header lines themselves. -/
def specHeadersContainNonEmptyUpgrade (headers : List (List Char)) : Bool :=
  headers.any fun line =>
    match splitFirstColon (trimSpace line) with
    | none => false
    | some (name, value) =>
        toLowerStr (trimSpace name) == "upgrade".data && trimSpace value ≠ []

/-! ## Supporting lemmas -/

/-- Decoding inverts the 4-byte big-endian encoding for 32-bit values. -/
theorem beUint32_beBytes32 (n : Nat) (h : n < 2 ^ 32) :
    beUint32 (beBytes32 n) = n := by
  simp only [beUint32, beBytes32, List.foldl]
  omega

/-- The big-endian encoding always has exactly four bytes. -/
theorem length_beBytes32 (n : Nat) : (beBytes32 n).length = 4 := rfl

/-- A Go slice expression with valid bounds evaluates without panic. -/
theorem goSlice_eval (xs : List Nat) (lo hi : Nat) (h1 : lo ≤ hi) (h2 : hi ≤ xs.length) :
    goSlice xs lo hi = some ((xs.drop lo).take (hi - lo)) := by
  unfold goSlice
  rw [if_pos ⟨h1, h2⟩]

/-- Evaluation of the parser on a well-formed `lenBytes ++ host ++ portBytes`
payload. -/
theorem parseDirectTCPIPExtra_eval (a host b : List Nat)
    (ha : a.length = 4) (hb : b.length = 4) (hL : beUint32 a = host.length) :
    parseDirectTCPIPExtra (a ++ (host ++ b)) =
      some (Except.ok (host, beUint32 b)) := by
  have hlen : (a ++ (host ++ b)).length = 4 + host.length + 4 := by
    simp [List.length_append, ha, hb]
    omega
  have h4 : ¬ (a ++ (host ++ b)).length < 4 := by omega
  have hlt2 : ¬ (a ++ (host ++ b)).length < 4 + host.length + 4 := by omega
  have hs1 : goSlice (a ++ (host ++ b)) 0 4 = some a := by
    unfold goSlice
    rw [if_pos (by exact ⟨by omega, by omega⟩)]
    rw [List.drop_zero]
    norm_num
    exact List.take_left' ha
  have hs2 : goSlice (a ++ (host ++ b)) 4 (4 + host.length) = some host := by
    unfold goSlice
    rw [if_pos (by exact ⟨by omega, by omega⟩)]
    rw [List.drop_left' ha]
    have h1 : 4 + host.length - 4 = host.length := by omega
    rw [h1, List.take_left]
  have hs3 : goSlice (a ++ (host ++ b)) (4 + host.length) (4 + host.length + 4) = some b := by
    unfold goSlice
    rw [if_pos (by exact ⟨by omega, by omega⟩)]
    rw [← List.append_assoc]
    have hd : List.drop (4 + host.length) (a ++ host ++ b) = b := by
      refine List.drop_left' ?_
      simp [List.length_append, ha]
    rw [hd]
    have h2 : 4 + host.length + 4 - (4 + host.length) = 4 := by omega
    rw [h2]
    exact congrArg some (List.take_of_length_le (by omega))
  unfold parseDirectTCPIPExtra
  rw [if_neg h4]
  simp only [hs1, hL, hlt2, if_false, hs2, hs3]

/-- Every payload that is too short for its own length prefix parses to an
error. -/
theorem parse_short_error (extra : List Nat)
    (h : extra.length < 4 ∨ extra.length < 4 + beUint32 (extra.take 4) + 4) :
    ∃ msg, parseDirectTCPIPExtra extra = some (Except.error msg) := by
  by_cases h4 : extra.length < 4
  · exact ⟨_, by unfold parseDirectTCPIPExtra; rw [if_pos h4]⟩
  · have hlt : extra.length < 4 + beUint32 (extra.take 4) + 4 := by
      rcases h with h | h
      · omega
      · exact h
    have hs1 : goSlice extra 0 4 = some (extra.take 4) := by
      rw [goSlice_eval extra 0 4 (by omega) (by omega)]
      simp
    refine ⟨"invalid direct-tcpip request: insufficient data for host and port", ?_⟩
    unfold parseDirectTCPIPExtra
    rw [if_neg h4]
    simp only [hs1]
    rw [if_pos hlt]

/-- Folding base-256 over bytes below 256 stays below the radix power. -/
theorem beUint32_foldl_bound (bs : List Nat) :
    ∀ acc : Nat, (∀ x ∈ bs, x < 256) →
      List.foldl (fun a b => a * 256 + b) acc bs < (acc + 1) * 256 ^ bs.length := by
  induction bs with
  | nil =>
    intro acc _
    simp only [List.foldl_nil, List.length_nil, pow_zero, mul_one]
    exact Nat.lt_succ_self acc
  | cons b t ih =>
    intro acc h
    have hb : b < 256 := h b (by simp)
    have ht : ∀ x ∈ t, x < 256 := fun x hx => h x (by simp [hx])
    have h1 := ih (acc * 256 + b) ht
    calc List.foldl (fun a b => a * 256 + b) acc (b :: t)
        = List.foldl (fun a b => a * 256 + b) (acc * 256 + b) t := rfl
      _ < (acc * 256 + b + 1) * 256 ^ t.length := h1
      _ ≤ ((acc + 1) * 256) * 256 ^ t.length := by
          have hstep : acc * 256 + b + 1 ≤ (acc + 1) * 256 := by omega
          exact Nat.mul_le_mul_right _ hstep
      _ = (acc + 1) * 256 ^ (b :: t).length := by
          rw [List.length_cons, pow_succ]
          ring

/-- A big-endian decode of at most four bytes below 256 fits in 32 bits. -/
theorem beUint32_lt (bs : List Nat) (h : ∀ x ∈ bs, x < 256) (hlen : bs.length ≤ 4) :
    beUint32 bs < 2 ^ 32 := by
  have h1 := beUint32_foldl_bound bs 0 h
  have h2 : (256 : Nat) ^ bs.length ≤ 256 ^ 4 :=
    Nat.pow_le_pow_right (by omega) hlen
  have h3 : (256 : Nat) ^ 4 = 2 ^ 32 := by norm_num
  calc beUint32 bs < (0 + 1) * 256 ^ bs.length := h1
    _ = 256 ^ bs.length := by ring
    _ ≤ 256 ^ 4 := h2
    _ = 2 ^ 32 := h3

/-- A non-newline character is accumulated into the current line. -/
theorem readHeaderChars_cons_ne (b l : List Char) (c : Char) (rest : List Char)
    (h : ¬ c = '\n') :
    readHeaderChars b l (c :: rest) = readHeaderChars b (l ++ [c]) rest := by
  simp [readHeaderChars, h]

/-- Reading a run of non-newline characters accumulates them all into the
current line. -/
theorem readHeaderChars_line (n : Nat) :
    ∀ b l : List Char,
      readHeaderChars b l (List.replicate n 'x' ++ ['\n']) =
        readHeaderChars b (l ++ List.replicate n 'x') ['\n'] := by
  induction n with
  | zero => intro b l; simp [List.replicate]
  | succ n ih =>
    intro b l
    rw [List.replicate_succ, List.cons_append,
      readHeaderChars_cons_ne b l 'x' _ (by decide), ih b (l ++ ['x'])]
    congr 1
    rw [List.append_assoc, List.singleton_append, ← List.replicate_succ]

/-- Evaluation of the loop when the input ends at a newline. -/
theorem readHeaderChars_final_newline (b l : List Char) :
    readHeaderChars b l ['\n'] =
      (if stringsHasSuffix (b ++ (l ++ ['\n'])) ['\r', '\n', '\r', '\n'] then
        HeaderReadOutcome.proceed (b ++ (l ++ ['\n']))
      else if BufferSize < (b ++ (l ++ ['\n'])).length then HeaderReadOutcome.tooLarge
      else HeaderReadOutcome.readError) := by
  simp [readHeaderChars]

/-- A long single line of `x` characters does not end in the header
terminator. -/
theorem overflow_no_suffix :
    stringsHasSuffix (List.replicate 16385 'x' ++ ['\n']) ['\r', '\n', '\r', '\n'] = false := by
  have hbb : (List.replicate 16385 'x' ++ ['\n'] : List Char).length = 16386 := by
    rw [List.length_append, List.length_replicate]
    decide
  unfold stringsHasSuffix
  rw [if_pos (by rw [hbb]; decide)]
  apply Bool.eq_false_iff.mpr
  intro hbeq
  have heq := eq_of_beq hbeq
  have h1 : ('\r' : Char) ∈ (['\r', '\n', '\r', '\n'] : List Char) := by decide
  rw [← heq] at h1
  have h2 := List.drop_subset _ _ h1
  rw [List.mem_append] at h2
  rcases h2 with hm | hm
  · exact absurd (List.eq_of_mem_replicate hm) (by decide)
  · simp at hm

/-- A 16386-byte header line without the terminator trips the size check. -/
theorem overflow_readHeader :
    readHeaderChars [] [] (List.replicate 16385 'x' ++ ['\n']) =
      HeaderReadOutcome.tooLarge := by
  have hloop := readHeaderChars_line 16385 [] []
  rw [List.nil_append] at hloop
  rw [hloop, readHeaderChars_final_newline]
  rw [List.nil_append]
  rw [overflow_no_suffix]
  rw [if_neg (by simp)]
  rw [if_pos ?hc]
  case hc =>
    have hbb : (List.replicate 16385 'x' ++ ['\n'] : List Char).length = 16386 := by
      rw [List.length_append, List.length_replicate]
      decide
    rw [hbb]
    decide

/-- On the overflow outcome, `Session.Handle` performs exactly the 431
write and nothing else. -/
theorem sessionHandle_tooLarge (input : List Char) (cOk wOk : Bool)
    (h : readHeaderChars [] [] input = HeaderReadOutcome.tooLarge) :
    sessionHandle input cOk wOk = [SessionAction.writeClient headerTooLargeResponse] := by
  unfold sessionHandle
  rw [h]

/-- On a successfully parsed header block, `Session.Handle` defers to
`WebSocketHandler` and relays exactly when it returns true. -/
theorem sessionHandle_proceed (input buf : List Char) (cOk wOk : Bool)
    (h : readHeaderChars [] [] input = HeaderReadOutcome.proceed buf) :
    sessionHandle input cOk wOk =
      (match WebSocketHandler ((splitOnCRLF buf).drop 1) cOk wOk with
       | (acts, true) => acts ++ [SessionAction.startRelay]
       | (acts, false) => acts) := by
  unfold sessionHandle
  rw [h]

/-- When `WebSocketHandler` reports success, its actions are exactly the
engine spawn followed by the fixed upgrade-response write. -/
theorem wsHandler_of_true (reqLines : List (List Char)) (cOk wOk : Bool)
    (h : (WebSocketHandler reqLines cOk wOk).2 = true) :
    WebSocketHandler reqLines cOk wOk =
      ([SessionAction.spawnEngine, SessionAction.writeClient WebSocketUpgradeResponse], true) := by
  unfold WebSocketHandler at h ⊢
  by_cases hu : HeaderValue reqLines "Upgrade".data = []
  · rw [if_pos hu] at h
    simp at h
  · rw [if_neg hu] at h ⊢
    cases cOk with
    | false => simp at h
    | true =>
      cases wOk with
      | false => simp at h
      | true => simp

/-- `WebSocketHandler` itself never emits the relay-start action. -/
theorem wsHandler_no_startRelay (reqLines : List (List Char)) (cOk wOk : Bool) :
    SessionAction.startRelay ∉ (WebSocketHandler reqLines cOk wOk).1 := by
  unfold WebSocketHandler
  by_cases hu : HeaderValue reqLines "Upgrade".data = []
  · rw [if_pos hu]
    simp
  · rw [if_neg hu]
    cases cOk with
    | false => simp
    | true =>
      cases wOk with
      | false => simp
      | true => simp

/-! ## Claim theorems -/

/-- C1: for every host (of 32-bit-representable length) and every 32-bit
port, parsing the serialized channel-open payload — big-endian uint32
hostLen, the host bytes, big-endian uint32 port — with
`parseDirectTCPIPExtra` returns exactly that `(host, port)` pair with no
error and no panic. -/
theorem c1_parse_serialize_roundtrip (host : List Nat) (port : Nat)
    (hh : host.length < 2 ^ 32) (hp : port < 2 ^ 32) :
    parseDirectTCPIPExtra (serializeDirectTCPIP host port) =
      some (Except.ok (host, port)) := by
  have e_def : serializeDirectTCPIP host port =
      beBytes32 host.length ++ (host ++ beBytes32 port) := by
    simp [serializeDirectTCPIP, List.append_assoc]
  rw [e_def,
    parseDirectTCPIPExtra_eval _ _ _ (length_beBytes32 _) (length_beBytes32 _)
      (beUint32_beBytes32 _ hh),
    beUint32_beBytes32 _ hp]

/-- Witness for C1 at a concrete host and port. -/
theorem c1_parse_serialize_roundtrip_witness :
    parseDirectTCPIPExtra (serializeDirectTCPIP [101, 120] 22) =
      some (Except.ok ([101, 120], 22)) :=
  c1_parse_serialize_roundtrip [101, 120] 22 (by decide) (by decide)

/-- C2: a direct-tcpip channel whose extra data is shorter than 4 bytes, or
shorter than `4 + hostLen + 4` bytes, makes `parseDirectTCPIPExtra` return
an error; the channel is rejected with that error, no target dial occurs
for it, and `HandleSSHChannels` keeps processing the remaining channels
rather than aborting the session. -/
theorem c2_malformed_channel_rejected (c : NewChannel) (rest : List NewChannel)
    (hct : c.channelType = "direct-tcpip")
    (hshort : c.extraData.length < 4 ∨
      c.extraData.length < 4 + beUint32 (c.extraData.take 4) + 4) :
    (∃ msg, parseDirectTCPIPExtra c.extraData = some (Except.error msg) ∧
      handleChannel c = ChannelAction.rejectedProhibited msg) ∧
    channelDials (handleChannel c) = false ∧
    HandleSSHChannels (c :: rest) = handleChannel c :: HandleSSHChannels rest := by
  obtain ⟨msg, he⟩ := parse_short_error c.extraData hshort
  have hhc : handleChannel c = ChannelAction.rejectedProhibited msg := by
    unfold handleChannel
    rw [if_neg (by simp [isDirectTCPIPChannel, hct])]
    rw [he]
  refine ⟨⟨msg, he, hhc⟩, ?_, ?_⟩
  · rw [hhc]
    rfl
  · rfl

/-- Witness for C2 at a concrete truncated payload followed by another
channel. -/
theorem c2_malformed_channel_rejected_witness :
    channelDials (handleChannel
      { channelType := "direct-tcpip", extraData := [0, 0, 0, 9, 1], acceptOk := true }) = false ∧
    HandleSSHChannels
      [{ channelType := "direct-tcpip", extraData := [0, 0, 0, 9, 1], acceptOk := true },
       { channelType := "session", extraData := [], acceptOk := true }] =
      handleChannel { channelType := "direct-tcpip", extraData := [0, 0, 0, 9, 1], acceptOk := true } ::
        HandleSSHChannels [{ channelType := "session", extraData := [], acceptOk := true }] := by
  have h := c2_malformed_channel_rejected
    { channelType := "direct-tcpip", extraData := [0, 0, 0, 9, 1], acceptOk := true }
    [{ channelType := "session", extraData := [], acceptOk := true }]
    rfl (Or.inr (by decide))
  exact ⟨h.2.1, h.2.2⟩

/-- C3: authentication succeeds if and only if the user exists, the account
is enabled, and the stored credential hash matches the password; in
particular a disabled account is denied even with a matching password, and
`PasswordAuth` succeeds exactly when `UserDB.Authenticate` does. -/
theorem c3_authenticate_iff (db : UserDB) (u p : String) :
    (db.Authenticate u p = true ↔
      ∃ usr, db.users.lookup u = some usr ∧ usr.enabled = true ∧
        db.verifyPassword p usr.passwordHash = true) ∧
    (PasswordAuth (some db) u p = Except.ok () ↔ db.Authenticate u p = true) := by
  constructor
  · unfold UserDB.Authenticate
    cases hl : db.users.lookup u with
    | none => simp
    | some usr =>
      cases he : usr.enabled with
      | false => simp [he]
      | true =>
        cases hv : db.verifyPassword p usr.passwordHash with
        | false => simp [he, hv]
        | true => simp [he, hv]
  · unfold PasswordAuth
    by_cases ha : db.Authenticate u p = true
    · simp [ha]
    · simp [ha]

/-- Witness for C3 at a concrete one-user database. -/
theorem c3_authenticate_iff_witness :
    UserDB.Authenticate
      { users := [("alice", { username := "alice", passwordHash := "h", enabled := true })],
        verifyPassword := fun p _ => p == "pw" } "alice" "pw" = true :=
  ((c3_authenticate_iff _ "alice" "pw").1).mpr
    ⟨{ username := "alice", passwordHash := "h", enabled := true }, rfl, rfl, rfl⟩

/-- C4: on a session whose handshake is rejected, no forwarding channel is
ever processed — but the registry count does not stay 0: `Session.Relay`'s
deferred `Remove` runs without a prior `Add`, driving the active count and
the WaitGroup counter of a fresh server to −1 after teardown (in Go,
`wg.Done()` below zero panics). This exhibits the code bug behind the
claim. -/
theorem c4_rejected_handshake_negative_count :
    HandleSSHConnectionChannelActions false
      [{ channelType := "direct-tcpip", extraData := [0, 0, 0, 0, 0, 0, 0, 80], acceptOk := true }] = [] ∧
    (applyRegOps 1 initialServerState (sessionLifecycleRegOps true false)).activeCount = -1 ∧
    (applyRegOps 1 initialServerState (sessionLifecycleRegOps true false)).wgCounter = -1 ∧
    (applyRegOps 1 initialServerState (sessionLifecycleRegOps true false)).activeCount ≠ 0 := by
  refine ⟨rfl, ?_, ?_, ?_⟩ <;> decide

/-- C5: `Server.Add` after shutdown has been initiated is a no-op — the
session is not stored and neither counter changes — while before shutdown
it stores the session and increments both the WaitGroup and the active
count. -/
theorem c5_add_shutdown_noop (st : ServerState) (sid : Nat) :
    (st.shutdownInitiated = true → ServerAdd st sid = st) ∧
    (st.shutdownInitiated = false →
      ServerAdd st sid =
        { st with
          conns := sid :: st.conns
          wgCounter := st.wgCounter + 1
          activeCount := st.activeCount + 1 }) := by
  constructor <;> intro h <;> simp [ServerAdd, h]

/-- Witness for C5 at concrete pre- and post-shutdown states. -/
theorem c5_add_shutdown_noop_witness :
    ServerAdd { shutdownInitiated := true, conns := [], wgCounter := 0, activeCount := 0 } 7 =
      { shutdownInitiated := true, conns := [], wgCounter := 0, activeCount := 0 } ∧
    ServerAdd { shutdownInitiated := false, conns := [], wgCounter := 0, activeCount := 0 } 7 =
      { shutdownInitiated := false, conns := [7], wgCounter := 1, activeCount := 1 } :=
  ⟨(c5_add_shutdown_noop _ _).1 rfl, (c5_add_shutdown_noop _ _).2 rfl⟩

/-- C6: a client whose header bytes exceed 16KB before the CRLFCRLF
terminator receives exactly the 431 status line followed by CRLFCRLF with
no body, and no upgrade occurs — but the session performs no close action
on this path: `Session.Handle` returns without closing the client
connection, exhibiting the code bug behind the claim. -/
theorem c6_header_overflow_no_close :
    sessionHandle (List.replicate 16385 'x' ++ ['\n']) true true =
      [SessionAction.writeClient headerTooLargeResponse] ∧
    headerTooLargeResponse = "HTTP/1.1 431 Request Header Fields Too Large\r\n\r\n".data ∧
    SessionAction.closeConn ∉ sessionHandle (List.replicate 16385 'x' ++ ['\n']) true true ∧
    SessionAction.startRelay ∉ sessionHandle (List.replicate 16385 'x' ++ ['\n']) true true := by
  have h1 := sessionHandle_tooLarge _ true true overflow_readHeader
  refine ⟨h1, rfl, ?_, ?_⟩
  · rw [h1]
    simp
  · rw [h1]
    simp

/-- C7: whenever a session reaches the relay (that is, the upgrade was
accepted), the exact upgrade response — status line, Upgrade, Connection,
fixed Sec-WebSocket-Accept, and version headers — was written to the
client, byte for byte, before the relay starts. -/
theorem c7_upgrade_response_exact (input : List Char) (configOk writeOk : Bool)
    (h : SessionAction.startRelay ∈ sessionHandle input configOk writeOk) :
    sessionHandle input configOk writeOk =
      [SessionAction.spawnEngine,
       SessionAction.writeClient ("HTTP/1.1 101 Switching Protocols\r\nUpgrade: websocket\r\nConnection: Upgrade\r\nSec-WebSocket-Accept: s3pPLMBiTxaQ9kYGzzhZRbK+xOo=\r\nSec-WebSocket-Version: 13\r\n\r\n").data,
       SessionAction.startRelay] := by
  cases hout : readHeaderChars [] [] input with
  | readError =>
    have he : sessionHandle input configOk writeOk = [] := by
      unfold sessionHandle
      rw [hout]
    rw [he] at h
    simp at h
  | tooLarge =>
    have he := sessionHandle_tooLarge input configOk writeOk hout
    rw [he] at h
    simp at h
  | proceed buf =>
    have he := sessionHandle_proceed input buf configOk writeOk hout
    rw [he] at h ⊢
    cases hok : (WebSocketHandler ((splitOnCRLF buf).drop 1) configOk writeOk).2 with
    | false =>
      exfalso
      rcases hws : WebSocketHandler ((splitOnCRLF buf).drop 1) configOk writeOk with ⟨acts, ok2⟩
      rw [hws] at h hok
      cases hok
      simp only at h
      exact wsHandler_no_startRelay _ configOk writeOk (by rw [hws]; exact h)
    | true =>
      have hws := wsHandler_of_true _ configOk writeOk hok
      rw [hws] at h ⊢
      simp only
      have hresp : WebSocketUpgradeResponse =
          ("HTTP/1.1 101 Switching Protocols\r\nUpgrade: websocket\r\nConnection: Upgrade\r\nSec-WebSocket-Accept: s3pPLMBiTxaQ9kYGzzhZRbK+xOo=\r\nSec-WebSocket-Version: 13\r\n\r\n").data := by
        decide
      rw [hresp]
      rfl

/-- Witness for C7 at a concrete upgrading request. -/
theorem c7_upgrade_response_exact_witness :
    sessionHandle "GET / HTTP/1.1\r\nUpgrade: websocket\r\n\r\n".data true true =
      [SessionAction.spawnEngine,
       SessionAction.writeClient ("HTTP/1.1 101 Switching Protocols\r\nUpgrade: websocket\r\nConnection: Upgrade\r\nSec-WebSocket-Accept: s3pPLMBiTxaQ9kYGzzhZRbK+xOo=\r\nSec-WebSocket-Version: 13\r\n\r\n").data,
       SessionAction.startRelay] :=
  c7_upgrade_response_exact _ true true (by decide)

/-- C8 counterexample: header lines holding an empty-valued `Upgrade` field
before a non-empty one do contain an Upgrade field with a non-empty value,
yet `WebSocketHandler` refuses the bridge, because `HeaderValue` returns
the first match only. This refutes the claimed if-and-only-if. -/
theorem c8_counterexample_first_match :
    (WebSocketHandler ["Upgrade:".data, "Upgrade: websocket".data] true true).2 = false ∧
    specHeadersContainNonEmptyUpgrade ["Upgrade:".data, "Upgrade: websocket".data] = true := by
  exact ⟨by decide, by decide⟩

/-- C8 (amended): with config creation and the response write succeeding,
the session bridges into the tunnel engine if and only if the value
`HeaderValue` extracts for `Upgrade` — the first matching field,
case-insensitively — is non-empty; when that value is empty the connection
is closed immediately with no response written. -/
theorem c8_upgrade_detection (reqLines : List (List Char)) :
    ((WebSocketHandler reqLines true true).2 = true ↔
      HeaderValue reqLines "Upgrade".data ≠ []) ∧
    (HeaderValue reqLines "Upgrade".data = [] →
      WebSocketHandler reqLines true true = ([SessionAction.closeConn], false)) := by
  constructor
  · by_cases hu : HeaderValue reqLines "Upgrade".data = [] <;>
      simp [WebSocketHandler, hu]
  · intro hu
    simp [WebSocketHandler, hu]

/-- Witness for the amended C8 at concrete header lists. -/
theorem c8_upgrade_detection_witness :
    WebSocketHandler [] true true = ([SessionAction.closeConn], false) ∧
    (WebSocketHandler ["Upgrade: websocket".data] true true).2 = true :=
  ⟨(c8_upgrade_detection []).2 rfl,
   ((c8_upgrade_detection ["Upgrade: websocket".data]).1).mpr (by decide)⟩

/-- C9 counterexample: the payload encoding host length 0 and port field
`00 01 00 00` is accepted with port 65536, and the dial uses 65536
unchanged — above 65535, refuting the claim that the dialed port is at
most 65535. -/
theorem c9_counterexample_port_not_truncated :
    parseDirectTCPIPExtra [0, 0, 0, 0, 0, 1, 0, 0] =
      some (Except.ok ([], 65536)) ∧
    handlePortForwardingDial [] 65536 = ([], 65536) ∧
    ¬ (65536 ≤ 65535) :=
  ⟨rfl, rfl, by decide⟩

/-- C9 (amended): for every payload of bytes accepted by the parser, the
resulting port is the full decoded big-endian uint32 — below 2^32 but not
truncated to 16 bits — and the target dial uses exactly that decoded
value. -/
theorem c9_port_full_uint32 (extra host : List Nat) (port : Nat)
    (hbytes : ∀ x ∈ extra, x < 256)
    (hok : parseDirectTCPIPExtra extra = some (Except.ok (host, port))) :
    port < 2 ^ 32 ∧ handlePortForwardingDial host port = (host, port) := by
  refine ⟨?_, rfl⟩
  by_cases h4 : extra.length < 4
  · exfalso
    have he : parseDirectTCPIPExtra extra =
        some (Except.error "invalid direct-tcpip request: insufficient data for host length") := by
      unfold parseDirectTCPIPExtra
      rw [if_pos h4]
    rw [he] at hok
    simp at hok
  · have hs1 : goSlice extra 0 4 = some (extra.take 4) := by
      rw [goSlice_eval extra 0 4 (by omega) (by omega)]
      simp
    by_cases hlt : extra.length < 4 + beUint32 (extra.take 4) + 4
    · exfalso
      have he : parseDirectTCPIPExtra extra =
          some (Except.error "invalid direct-tcpip request: insufficient data for host and port") := by
        unfold parseDirectTCPIPExtra
        rw [if_neg h4]
        simp only [hs1]
        rw [if_pos hlt]
      rw [he] at hok
      simp at hok
    · have hs2 : goSlice extra 4 (4 + beUint32 (extra.take 4)) =
          some ((extra.drop 4).take (beUint32 (extra.take 4))) := by
        rw [goSlice_eval extra 4 _ (by omega) (by omega)]
        congr 2
        omega
      have hs3 : goSlice extra (4 + beUint32 (extra.take 4))
          (4 + beUint32 (extra.take 4) + 4) =
          some ((extra.drop (4 + beUint32 (extra.take 4))).take 4) := by
        rw [goSlice_eval extra _ _ (by omega) (by omega)]
        congr 2
        omega
      have he : parseDirectTCPIPExtra extra =
          some (Except.ok ((extra.drop 4).take (beUint32 (extra.take 4)),
            beUint32 ((extra.drop (4 + beUint32 (extra.take 4))).take 4))) := by
        unfold parseDirectTCPIPExtra
        rw [if_neg h4]
        simp only [hs1]
        rw [if_neg hlt]
        simp only [hs2, hs3]
      rw [he] at hok
      have hport : port = beUint32 ((extra.drop (4 + beUint32 (extra.take 4))).take 4) := by
        injection hok with hok
        injection hok with hok
        exact (congrArg Prod.snd hok).symm
      rw [hport]
      refine beUint32_lt _ ?_ (List.length_take_le _ _)
      intro x hx
      exact hbytes x (List.drop_subset _ _ (List.take_subset _ _ hx))

/-- Witness for the amended C9 at a concrete payload. -/
theorem c9_port_full_uint32_witness :
    (80 : Nat) < 2 ^ 32 ∧ handlePortForwardingDial [] 80 = ([], 80) :=
  c9_port_full_uint32 [0, 0, 0, 0, 0, 0, 0, 80] [] 80 (by decide) rfl

/-- C10: `parseDirectTCPIPExtra` is total and panic-free — on every input
it returns an error or a result, never the out-of-bounds marker — and on
success `4 + hostLen + 4` is at most the input length and the returned host
is exactly the input bytes at indices `[4, 4 + hostLen)`. -/
theorem c10_parse_total_and_bounds (extra : List Nat) :
    match parseDirectTCPIPExtra extra with
    | none => False
    | some (Except.error _) => True
    | some (Except.ok (host, _port)) =>
        4 + host.length + 4 ≤ extra.length ∧
        host = (extra.drop 4).take (beUint32 (extra.take 4)) ∧
        host.length = beUint32 (extra.take 4) := by
  by_cases h4 : extra.length < 4
  · have he : parseDirectTCPIPExtra extra =
        some (Except.error "invalid direct-tcpip request: insufficient data for host length") := by
      unfold parseDirectTCPIPExtra
      rw [if_pos h4]
    rw [he]
    exact trivial
  · have hs1 : goSlice extra 0 4 = some (extra.take 4) := by
      rw [goSlice_eval extra 0 4 (by omega) (by omega)]
      simp
    by_cases hlt : extra.length < 4 + beUint32 (extra.take 4) + 4
    · have he : parseDirectTCPIPExtra extra =
          some (Except.error "invalid direct-tcpip request: insufficient data for host and port") := by
        unfold parseDirectTCPIPExtra
        rw [if_neg h4]
        simp only [hs1]
        rw [if_pos hlt]
      rw [he]
      exact trivial
    · have hs2 : goSlice extra 4 (4 + beUint32 (extra.take 4)) =
          some ((extra.drop 4).take (beUint32 (extra.take 4))) := by
        rw [goSlice_eval extra 4 _ (by omega) (by omega)]
        congr 2
        omega
      have hs3 : goSlice extra (4 + beUint32 (extra.take 4))
          (4 + beUint32 (extra.take 4) + 4) =
          some ((extra.drop (4 + beUint32 (extra.take 4))).take 4) := by
        rw [goSlice_eval extra _ _ (by omega) (by omega)]
        congr 2
        omega
      have he : parseDirectTCPIPExtra extra =
          some (Except.ok ((extra.drop 4).take (beUint32 (extra.take 4)),
            beUint32 ((extra.drop (4 + beUint32 (extra.take 4))).take 4))) := by
        unfold parseDirectTCPIPExtra
        rw [if_neg h4]
        simp only [hs1]
        rw [if_neg hlt]
        simp only [hs2, hs3]
      rw [he]
      refine ⟨?_, rfl, ?_⟩
      · have hln : ((extra.drop 4).take (beUint32 (extra.take 4))).length =
            beUint32 (extra.take 4) := by
          simp [List.length_take, List.length_drop]
          omega
        omega
      · simp [List.length_take, List.length_drop]
        omega

end Sshify
